import Mathlib

/-!
Verification development for the Ingestion & Analytics Engine of the
chemical-equipment-parameter-visualizer backend.

The embedding models `backend/api/services.py` (class `DatasetService`) and
`backend/api/models.py` (the `Dataset`/`Equipment` tables and the
`maintain_dataset_limit` post-save signal).

Modelling conventions:
* Python floats are modelled as exact rationals (`ℚ`); the only float value
  with no rational counterpart that the code can meet is NaN, which is
  modelled explicitly (`Cell.nan`, `Option ℚ` with `none` = NaN, `Option ℝ`
  cells in the correlation matrix with `none` = NaN).
* A CSV that `pd.read_csv` has successfully parsed is a `ParsedCsv`
  (column-name list plus a cell grid).  Decode/parse failures
  (`UnicodeDecodeError`, `pd.errors.EmptyDataError`) happen before a parsed
  table exists and are outside the model.
* The database is a `Store`: a list of dataset rows and a list of equipment
  rows (foreign key `dataset_id`), plus the id counter and a clock supplying
  `auto_now_add` timestamps.
* `@transaction.atomic` is modelled by `create_dataset_from_csv` returning
  `Except`: an `.error` result commits nothing, the caller's store is
  unchanged (`committed`).
-/

namespace CEPV

/-! ### Small helpers: ordering, sorting, rounding, means -/

/-- Lexicographic comparison of character lists by code point. -/
def lexLe : List Char → List Char → Bool
  | [], _ => true
  | _ :: _, [] => false
  | a :: as, b :: bs =>
    if a.val < b.val then true else if b.val < a.val then false else lexLe as bs

/-- Code-point lexicographic order on strings: the order Python's `str`
comparison and the database collation used by Django's
`ordering = ['equipment_name']` apply to plain ASCII names. -/
def strLe (a b : String) : Bool := lexLe a.data b.data

/-- Insert into a sorted list (ascending with respect to `le`). -/
def insertLe (le : α → α → Bool) (a : α) : List α → List α
  | [] => [a]
  | b :: t => if le a b then a :: b :: t else b :: insertLe le a t

/-- Insertion sort; models `ORDER BY` / `sorted` (any correct sort — the
claims only use it on lists whose keys are pairwise distinct, where every
correct sort agrees). -/
def sortBy (le : α → α → Bool) : List α → List α
  | [] => []
  | a :: t => insertLe le a (sortBy le t)

/-- Sample mean: `np.mean` / `pd.Series.mean` on a non-empty list. -/
def mean (l : List ℚ) : ℚ := l.sum / l.length

/-- Round to the nearest integer, ties to even: the rounding used by Python's
built-in `round` and by numpy/pandas `.round`. -/
def roundHalfEven (q : ℚ) : ℤ :=
  if q - ⌊q⌋ < 1 / 2 then ⌊q⌋
  else if 1 / 2 < q - ⌊q⌋ then ⌊q⌋ + 1
  else if ⌊q⌋ % 2 = 0 then ⌊q⌋ else ⌊q⌋ + 1

/-- `round(x, 2)`. -/
def round2 (q : ℚ) : ℚ := (roundHalfEven (q * 100) : ℚ) / 100

/-! ### CSV model and `DatasetService.validate_csv` -/

/-- One parsed CSV cell.  `num` is a cell `pd.to_numeric` coerces to a float,
`str` is text that fails numeric coercion, `nan` is an empty/NaN cell. -/
inductive Cell where
  | str (s : String)
  | num (q : ℚ)
  | nan
deriving DecidableEq

/-- A CSV table as produced by `pd.read_csv`: header names plus a row-major
cell grid (row `i`, position `j` holds the value of column `columns[j]`). -/
structure ParsedCsv where
  columns : List String
  rows : List (List Cell)
deriving DecidableEq

/-- `DatasetService.REQUIRED_COLUMNS`. -/
def REQUIRED_COLUMNS : List String :=
  ["Equipment Name", "Type", "Flowrate", "Pressure", "Temperature"]

/-- The first members of `Equipment.EquipmentType.choices`. -/
def VALID_TYPES : List String :=
  ["Pump", "Compressor", "Valve", "HeatExchanger", "Reactor", "Condenser", "Tank", "Other"]

/-- Look a named column up in a row (`df[col]` at one row): position of the
first matching header name, then that cell, if the row is long enough. -/
def cellAt (csv : ParsedCsv) (row : List Cell) (c : String) : Option Cell :=
  match csv.columns.findIdx? (fun c' => c' == c) with
  | none => none
  | some i => row.get? i

/-- `pd.to_numeric(cell, errors='coerce')`: numeric cells pass through, text
that does not parse as a number and missing/NaN cells become NaN (`none`). -/
def toNumeric : Option Cell → Option ℚ
  | some (Cell.num q) => some q
  | _ => none

/-- String content of a text cell (used for the `Equipment Name` and `Type`
columns, which the service reads as strings). -/
def cellText : Option Cell → String
  | some (Cell.str s) => s
  | _ => ""

/-- One row surviving `df.dropna(subset=numeric_columns)`.  `origIdx` is the
row's pandas index label — its position in the *original* parsed table, which
`dropna` keeps unchanged (this is what `df.iterrows()` later yields as `idx`). -/
structure CleanRow where
  origIdx : ℕ
  name : String
  etype : String
  flowrate : ℚ
  pressure : ℚ
  temperature : ℚ
deriving DecidableEq

/-- `[col for col in REQUIRED_COLUMNS if col not in df.columns]`. -/
def missingColumns (csv : ParsedCsv) : List String :=
  REQUIRED_COLUMNS.filter (fun c => !(csv.columns.contains c))

/-- Numeric coercion of the three numeric columns followed by
`df.dropna(subset=numeric_columns)`: rows whose three numeric cells all
coerce survive, with their original index labels. -/
def cleanRows (csv : ParsedCsv) : List CleanRow :=
  csv.rows.enum.filterMap (fun p =>
    match toNumeric (cellAt csv p.2 "Flowrate"), toNumeric (cellAt csv p.2 "Pressure"),
        toNumeric (cellAt csv p.2 "Temperature") with
    | some f, some pr, some te =>
      some { origIdx := p.1, name := cellText (cellAt csv p.2 "Equipment Name"),
             etype := cellText (cellAt csv p.2 "Type"),
             flowrate := f, pressure := pr, temperature := te }
    | _, _, _ => none)

/-- `df.loc[~df['Type'].isin(valid_types), 'Type'] = 'Other'` for one value:
an exact member of the enumeration is kept, anything else becomes `Other`. -/
def normalizeType (t : String) : String := if VALID_TYPES.contains t then t else "Other"

/-- The body of the `try:` block of `validate_csv` (column check, numeric
cleaning, emptiness check, type mapping), raising unwrapped messages. -/
def validate_inner (csv : ParsedCsv) : Except String (List CleanRow) :=
  if missingColumns csv ≠ [] then
    .error ("Missing required columns: " ++ String.intercalate ", " (missingColumns csv))
  else if cleanRows csv = [] then
    .error "No valid data rows found after cleaning"
  else
    .ok ((cleanRows csv).map (fun r => { r with etype := normalizeType r.etype }))

/-- `DatasetService.validate_csv`.  Its trailing
`except Exception as e: raise CSVValidationError(f"CSV validation failed: {str(e)}")`
also catches the `CSVValidationError`s raised inside the `try:` block, so
every validation failure reaches the caller re-wrapped with the
`CSV validation failed: ` prefix. -/
def validate_csv (csv : ParsedCsv) : Except String (List CleanRow) :=
  match validate_inner csv with
  | .ok rows => .ok rows
  | .error msg => .error ("CSV validation failed: " ++ msg)

/-! ### `DatasetService.detect_outliers` -/

/-- `np.mean` / `np.std` NaN propagation: a list with a NaN entry has NaN
mean and NaN standard deviation; otherwise the plain values. -/
def allSome : List (Option ℚ) → Option (List ℚ)
  | [] => some []
  | none :: _ => none
  | some q :: t =>
    match allSome t with
    | none => none
    | some qs => some (q :: qs)

/-- The Z-score comparison `|value - mean| / std > threshold` for
`std = Real.sqrt variance > 0`, decided exactly on rationals: for a negative
threshold it always holds, otherwise it is squared.  `zOver_spec` below
proves this equal to the source's float comparison. -/
def zOver (d variance threshold : ℚ) : Bool :=
  decide (threshold < 0) || decide (threshold ^ 2 * variance < d ^ 2)

/-- `DatasetService.detect_outliers(values, threshold=2.0)`.
`values` are floats (`none` = NaN).  Fewer than 3 values: all-false.
`std = np.std(values, ddof=1)` is NaN iff some value is NaN (the variance of
rational values is a sum of squares over `n - 1 ≥ 2`, hence finite and
nonnegative), and zero iff the sample variance is zero, so the source's
`std == 0 or np.isnan(std)` early return is the `none` / `variance = 0`
branches below.  Otherwise row `i` is flagged iff `|values[i] - mean| / std >
threshold`. -/
def detect_outliers (values : List (Option ℚ)) (threshold : ℚ) : List Bool :=
  if values.length < 3 then List.replicate values.length false
  else
    match allSome values with
    | none => List.replicate values.length false
    | some vs =>
      let m := mean vs
      let variance := (vs.map (fun v => (v - m) ^ 2)).sum / ((vs.length : ℚ) - 1)
      if variance = 0 then List.replicate values.length false
      else vs.map (fun v => zOver (v - m) variance threshold)

/-! ### Store model: `Dataset` / `Equipment` tables and the retention signal -/

/-- A row of the `Dataset` table. -/
structure DatasetRec where
  id : ℕ
  filename : String
  uploaded_at : ℕ
  total_equipment : ℕ
  avg_flowrate : ℚ
  avg_pressure : ℚ
  avg_temperature : ℚ
deriving DecidableEq

/-- A row of the `Equipment` table (`dataset` foreign key as `dataset_id`). -/
structure EquipRec where
  dataset_id : ℕ
  equipment_name : String
  equipment_type : String
  flowrate : ℚ
  pressure : ℚ
  temperature : ℚ
  is_pressure_outlier : Bool
  is_temperature_outlier : Bool
deriving DecidableEq

/-- The persistent state: both tables, the id supply (UUIDs modelled as a
counter) and the wall clock that `auto_now_add` reads. -/
structure Store where
  datasets : List DatasetRec
  equipment : List EquipRec
  nextId : ℕ
  now : ℕ
deriving DecidableEq

/-- `Dataset.objects.order_by('-uploaded_at')`. -/
def recentDesc (l : List DatasetRec) : List DatasetRec :=
  sortBy (fun a b => decide (b.uploaded_at ≤ a.uploaded_at)) l

/-- The `maintain_dataset_limit` post-save signal: keep the ids of the 5 most
recent datasets, delete every other dataset, cascading (`on_delete=CASCADE`)
to its equipment. -/
def maintain_dataset_limit (s : Store) : Store :=
  let keep := ((recentDesc s.datasets).take 5).map (fun d => d.id)
  { s with
    datasets := s.datasets.filter (fun d => keep.contains d.id),
    equipment := s.equipment.filter (fun e => keep.contains e.dataset_id) }

/-- `Dataset.objects.create(...)`: inserts the row with a fresh id and the
current `auto_now_add` timestamp, then fires the post-save signal
(synchronously, inside the caller's transaction). -/
def createDataset (s : Store) (filename : String) (total : ℕ) (avgF avgP avgT : ℚ) :
    DatasetRec × Store :=
  let d : DatasetRec :=
    { id := s.nextId, filename := filename, uploaded_at := s.now, total_equipment := total,
      avg_flowrate := avgF, avg_pressure := avgP, avg_temperature := avgT }
  (d, maintain_dataset_limit
        { s with datasets := d :: s.datasets, nextId := s.nextId + 1, now := s.now + 1 })

/-- How `create_dataset_from_csv` can fail: a `CSVValidationError` (with its
message), or the uncaught Python `IndexError` raised when
`pressure_outliers[idx]` / `temperature_outliers[idx]` is indexed with a
pandas label beyond the outlier arrays' length. -/
inductive IngestErr where
  | validation (msg : String)
  | indexError
deriving DecidableEq

/-- The equipment-building list comprehension of `create_dataset_from_csv`:
for each surviving row (in order), read `pressure_outliers[idx]` and
`temperature_outliers[idx]` where `idx` is the row's pandas label
(`CleanRow.origIdx`), raising `IndexError` when the label is out of range of
the (positionally indexed) outlier arrays. -/
def buildEquipment (did : ℕ) (pOut tOut : List Bool) : List CleanRow → Except IngestErr (List EquipRec)
  | [] => .ok []
  | r :: rest =>
    match pOut.get? r.origIdx, tOut.get? r.origIdx with
    | some pf, some tf =>
      match buildEquipment did pOut tOut rest with
      | .ok es =>
        .ok ({ dataset_id := did, equipment_name := r.name, equipment_type := r.etype,
               flowrate := r.flowrate, pressure := r.pressure, temperature := r.temperature,
               is_pressure_outlier := pf, is_temperature_outlier := tf } :: es)
      | .error e => .error e
    | _, _ => .error .indexError

/-- `DatasetService.create_dataset_from_csv` under `@transaction.atomic`:
validate, compute summary stats, create the dataset row (which fires the
retention signal), detect outliers per numeric column, build and bulk-insert
the equipment rows.  An `.error` result means the transaction rolled back:
nothing of this call is committed. -/
def create_dataset_from_csv (csv : ParsedCsv) (filename : String) (s : Store) :
    Except IngestErr (Store × ℕ) :=
  match validate_csv csv with
  | .error msg => .error (.validation msg)
  | .ok rows =>
    let avgF := round2 (mean (rows.map (fun r => r.flowrate)))
    let avgP := round2 (mean (rows.map (fun r => r.pressure)))
    let avgT := round2 (mean (rows.map (fun r => r.temperature)))
    let ds := createDataset s filename rows.length avgF avgP avgT
    let pOut := detect_outliers (rows.map (fun r => some r.pressure)) 2
    let tOut := detect_outliers (rows.map (fun r => some r.temperature)) 2
    match buildEquipment ds.1.id pOut tOut rows with
    | .error e => .error e
    | .ok es => .ok ({ ds.2 with equipment := ds.2.equipment ++ es }, ds.1.id)

/-- The store a caller observes after the transaction: the new store on
commit, the unchanged original store on rollback. -/
def committed (s : Store) (r : Except IngestErr (Store × ℕ)) : Store :=
  match r with
  | .ok p => p.1
  | .error _ => s

/-- Well-formedness of a store between requests: timestamps lie in the past,
ids were assigned below the id counter, and dataset ids and timestamps are
pairwise distinct (`auto_now_add` monotonicity and UUID uniqueness). -/
def StoreInv (s : Store) : Prop :=
  (∀ d ∈ s.datasets, d.uploaded_at < s.now ∧ d.id < s.nextId) ∧
  (∀ e ∈ s.equipment, e.dataset_id < s.nextId) ∧
  s.datasets.Pairwise (fun a b => a.id ≠ b.id ∧ a.uploaded_at ≠ b.uploaded_at)

instance (s : Store) : Decidable (StoreInv s) := by
  unfold StoreInv; infer_instance

/-! ### `DatasetService.get_analytics` and `Dataset.get_analytics` -/

/-- `dataset.equipment.all()`: the dataset's equipment rows, in the model's
default ordering `Meta.ordering = ['equipment_name']`. -/
def equipmentOf (s : Store) (id : ℕ) : List EquipRec :=
  sortBy (fun a b => strLe a.equipment_name b.equipment_name)
    (s.equipment.filter (fun e => e.dataset_id == id))

/-- `Dataset.objects.get(id=dataset_id)`. -/
def findDataset (s : Store) (id : ℕ) : Option DatasetRec :=
  s.datasets.find? (fun d => d.id == id)

/-- First-occurrence list of the distinct members of a string list
(`seen` accumulates the values already emitted). -/
def distinctAux (seen : List String) : List String → List String
  | [] => []
  | a :: t => if seen.contains a then distinctAux seen t else a :: distinctAux (a :: seen) t

/-- Distinct values of a string list, first occurrence first. -/
def distinctStrs (l : List String) : List String := distinctAux [] l

/-- `equipment_qs.values('equipment_type').annotate(count=Count('id'))`:
the equipment-type distribution map. -/
def typeDistribution (eqs : List EquipRec) : List (String × ℕ) :=
  (distinctStrs (eqs.map (fun e => e.equipment_type))).map
    (fun t => (t, (eqs.filter (fun e => e.equipment_type == t)).length))

/-- An entry of `Dataset.get_analytics()['outlier_equipment']` (`etype` is
the payload's `type` key; `type` is reserved in Lean). -/
structure OutlierEntry where
  name : String
  etype : String
  pressure_outlier : Bool
  temperature_outlier : Bool
deriving DecidableEq

/-- The rows with either outlier flag set, as reported by
`Dataset.get_analytics`. -/
def outlierEntries (eqs : List EquipRec) : List OutlierEntry :=
  (eqs.filter (fun e => e.is_pressure_outlier || e.is_temperature_outlier)).map
    (fun e => { name := e.equipment_name, etype := e.equipment_type,
                pressure_outlier := e.is_pressure_outlier,
                temperature_outlier := e.is_temperature_outlier })

/-- `df.groupby('equipment_type').agg(mean).round(2)`: per-type mean of the
three numeric fields; pandas emits group keys in sorted order. -/
def peerBenchmarks (eqs : List EquipRec) : List (String × ℚ × ℚ × ℚ) :=
  (sortBy strLe (distinctStrs (eqs.map (fun e => e.equipment_type)))).map (fun t =>
    let g := eqs.filter (fun e => e.equipment_type == t)
    (t, round2 (mean (g.map (fun e => e.flowrate))),
     round2 (mean (g.map (fun e => e.pressure))),
     round2 (mean (g.map (fun e => e.temperature)))))

/-- The box-plot block of the payload (`distribution_stats`). -/
structure QStats where
  min : ℚ
  q1 : ℚ
  median : ℚ
  q3 : ℚ
  max : ℚ
deriving DecidableEq

/-- Ascending sort of a rational list. -/
def sortQ (l : List ℚ) : List ℚ := sortBy (fun a b => decide (a ≤ b)) l

/-- Minimum of a non-empty list (`describe()['min']`); 0 on `[]`. -/
def listMin (l : List ℚ) : ℚ :=
  match l with
  | [] => 0
  | a :: t => t.foldl min a

/-- Maximum of a non-empty list (`describe()['max']`); 0 on `[]`. -/
def listMax (l : List ℚ) : ℚ :=
  match l with
  | [] => 0
  | a :: t => t.foldl max a

/-- The percentile of `describe(percentiles=[...])`: linear interpolation
between the order statistics around position `p * (n - 1)` of the sorted
values. -/
def percentileLinear (l : List ℚ) (p : ℚ) : ℚ :=
  let s := sortQ l
  let pos : ℚ := p * ((s.length : ℚ) - 1)
  match s.get? ⌊pos⌋.toNat, s.get? (⌊pos⌋.toNat + 1) with
  | some a, some b => a + (pos - ⌊pos⌋) * (b - a)
  | some a, none => a
  | none, _ => 0

/-- The `distribution_stats` dict of `get_analytics`: min, Q1, median, Q3 and
max of a numeric column, each rounded to 2 decimals.  The source computes it
for the `flowrate` column only. -/
def distStats (l : List ℚ) : QStats :=
  { min := round2 (listMin l), q1 := round2 (percentileLinear l (1 / 4)),
    median := round2 (percentileLinear l (1 / 2)), q3 := round2 (percentileLinear l (3 / 4)),
    max := round2 (listMax l) }

/-- Sum of deviation products `Σ (x - mean xs) * (y - mean ys)`: the shared
numerator/denominator ingredient of the Pearson correlation (the `n - 1`
factors of covariance and standard deviations cancel). -/
def devProd (xs ys : List ℚ) : ℚ :=
  ((xs.zip ys).map (fun p => (p.1 - mean xs) * (p.2 - mean ys))).sum

/-- Sum of squared deviations of one column. -/
def devSq (xs : List ℚ) : ℚ := devProd xs xs

/-- Pearson correlation as pandas computes it (`Series.corr`,
`DataFrame.corr`): `Σdxdy / sqrt(Σdx² * Σdy²)`, NaN (`none`) whenever the
denominator is zero — a zero-variance column, fewer than 2 rows — since
pandas computes `0/0` there.  The value is a real number (the square root is
irrational in general). -/
noncomputable def pearson (xs ys : List ℚ) : Option ℝ :=
  if devSq xs * devSq ys = 0 then none
  else some ((devProd xs ys : ℝ) / Real.sqrt ((devSq xs * devSq ys : ℚ) : ℝ))

/-- Round a real to the nearest integer, ties to even (numpy/pandas/`round`
on floats). -/
noncomputable def roundHalfEvenR (x : ℝ) : ℤ :=
  if Int.fract x < 1 / 2 then ⌊x⌋
  else if 1 / 2 < Int.fract x then ⌊x⌋ + 1
  else if ⌊x⌋ % 2 = 0 then ⌊x⌋ else ⌊x⌋ + 1

/-- `round(x, k)` on reals. -/
noncomputable def roundToR (k : ℕ) (x : ℝ) : ℝ :=
  (roundHalfEvenR (x * (10 ^ k : ℕ)) : ℝ) / (10 ^ k : ℕ)

/-- One cell of `df[[...]].corr().round(2)`.  NaN cells (`none`) stay NaN:
`round` maps NaN to NaN and the source applies no `fillna`. -/
noncomputable def corrCell (xs ys : List ℚ) : Option ℝ := (pearson xs ys).map (roundToR 2)

/-- One record of the serialized correlation matrix
(`corr_df.reset_index().to_dict('records')`); `varName` is the `variable`
key (`variable` is reserved in Lean). -/
structure CorrRow where
  varName : String
  flowrate : Option ℝ
  pressure : Option ℝ
  temperature : Option ℝ

/-- The full 3×3 correlation matrix over flowrate, pressure, temperature. -/
noncomputable def corrMatrix (fl pr te : List ℚ) : List CorrRow :=
  [{ varName := "flowrate", flowrate := corrCell fl fl, pressure := corrCell fl pr,
     temperature := corrCell fl te },
   { varName := "pressure", flowrate := corrCell pr fl, pressure := corrCell pr pr,
     temperature := corrCell pr te },
   { varName := "temperature", flowrate := corrCell te fl, pressure := corrCell te pr,
     temperature := corrCell te te }]

/-- `round(df['pressure'].corr(df['temperature']) if len(df) > 1 else 0, 3)`. -/
noncomputable def ptCorrelation (pr te : List ℚ) : Option ℝ :=
  (if pr.length ≤ 1 then some 0 else pearson pr te).map (roundToR 3)

/-- A scatter/bubble point of `scatter_data` (`ptype` is the payload's
`type` key). -/
structure ScatterPoint where
  x : ℚ
  y : ℚ
  r : ℚ
  name : String
  ptype : String
deriving DecidableEq

/-- The `scatter_data` list: one point per equipment row, `x` = pressure,
`y` = temperature, bubble radius `r = max(2, flowrate / 15)`. -/
def scatterData (eqs : List EquipRec) : List ScatterPoint :=
  eqs.map (fun e =>
    { x := e.pressure, y := e.temperature, r := max 2 (e.flowrate / 15),
      name := e.equipment_name, ptype := e.equipment_type })

/-- The full analytics payload returned by `DatasetService.get_analytics`:
the base `Dataset.get_analytics()` dict merged with the advanced insights. -/
structure Payload where
  total_equipment : ℕ
  avg_flowrate : ℚ
  avg_pressure : ℚ
  avg_temperature : ℚ
  equipment_type_distribution : List (String × ℕ)
  outliers_count : ℕ
  outlier_equipment : List OutlierEntry
  pt_correlation : Option ℝ
  peer_benchmarks : List (String × ℚ × ℚ × ℚ)
  distribution_stats : QStats
  correlation_matrix : List CorrRow
  scatter_data : List ScatterPoint

/-- Assembling the payload from the dataset row and its equipment list. -/
noncomputable def mkPayload (d : DatasetRec) (eqs : List EquipRec) : Payload :=
  { total_equipment := d.total_equipment, avg_flowrate := d.avg_flowrate,
    avg_pressure := d.avg_pressure, avg_temperature := d.avg_temperature,
    equipment_type_distribution := typeDistribution eqs,
    outliers_count := (outlierEntries eqs).length,
    outlier_equipment := outlierEntries eqs,
    pt_correlation := ptCorrelation (eqs.map (fun e => e.pressure)) (eqs.map (fun e => e.temperature)),
    peer_benchmarks := peerBenchmarks eqs,
    distribution_stats := distStats (eqs.map (fun e => e.flowrate)),
    correlation_matrix := corrMatrix (eqs.map (fun e => e.flowrate))
      (eqs.map (fun e => e.pressure)) (eqs.map (fun e => e.temperature)),
    scatter_data := scatterData eqs }

/-- `DatasetService.get_analytics(dataset_id)`: `ValueError` messages for an
unknown id (`except Dataset.DoesNotExist`) and for a dataset without
equipment rows (raised inside the `try:` and not caught there). -/
noncomputable def get_analytics (s : Store) (id : ℕ) : Except String Payload :=
  match findDataset s id with
  | none => .error ("Dataset " ++ toString id ++ " not found")
  | some d =>
    if equipmentOf s id = [] then .error "Dataset has no equipment data"
    else .ok (mkPayload d (equipmentOf s id))

/-- The raw (pre-normalization) `Type` string of row `i` of the parsed
table. -/
def rawTypeAt (csv : ParsedCsv) (i : ℕ) : String :=
  match csv.rows.get? i with
  | some row => cellText (cellAt csv row "Type")
  | none => ""

instance instDecEqExcept {ε α : Type} [DecidableEq ε] [DecidableEq α] :
    DecidableEq (Except ε α) := fun x y =>
  match x, y with
  | .ok a, .ok b =>
    if h : a = b then isTrue (by rw [h]) else isFalse (by intro hc; cases hc; exact h rfl)
  | .ok _, .error _ => isFalse (by intro hc; cases hc)
  | .error _, .ok _ => isFalse (by intro hc; cases hc)
  | .error e, .error f =>
    if h : e = f then isTrue (by rw [h]) else isFalse (by intro hc; cases hc; exact h rfl)

/-- The dataset row `create_dataset_from_csv` inserts for validated rows
`rows`: fresh id, `auto_now_add` timestamp, and the rounded summary stats. -/
def newDataset (s : Store) (fn : String) (rows : List CleanRow) : DatasetRec :=
  { id := s.nextId, filename := fn, uploaded_at := s.now, total_equipment := rows.length,
    avg_flowrate := round2 (mean (rows.map (fun r => r.flowrate))),
    avg_pressure := round2 (mean (rows.map (fun r => r.pressure))),
    avg_temperature := round2 (mean (rows.map (fun r => r.temperature))) }

/-! ### Concrete instances used by individual claims -/

/-- A one-row table whose `Type` cell is lower-case `"pump"`. -/
def csvPumpLower : ParsedCsv :=
  { columns := ["Equipment Name", "Type", "Flowrate", "Pressure", "Temperature"],
    rows := [[Cell.str "P1", Cell.str "pump", Cell.num 1, Cell.num 2, Cell.num 3]] }

/-- A one-row table whose `Type` cell is the exact enumeration value
`"Pump"`. -/
def csvPumpExact : ParsedCsv :=
  { columns := ["Equipment Name", "Type", "Flowrate", "Pressure", "Temperature"],
    rows := [[Cell.str "P2", Cell.str "Pump", Cell.num 1, Cell.num 2, Cell.num 3]] }

/-- The validated row `csvPumpExact` produces. -/
def rowPumpExact : CleanRow :=
  { origIdx := 0, name := "P2", etype := "Pump", flowrate := 1, pressure := 2, temperature := 3 }

/-- A table missing the `Pressure` and `Temperature` columns. -/
def csvMissingPT : ParsedCsv :=
  { columns := ["Equipment Name", "Type", "Flowrate"],
    rows := [[Cell.str "A", Cell.str "Pump", Cell.num 1]] }

/-- A four-row table whose first row has a non-numeric `Pressure` cell, so
cleaning drops row 0 and the surviving rows keep labels 1, 2, 3. -/
def csvDroppedRow : ParsedCsv :=
  { columns := ["Equipment Name", "Type", "Flowrate", "Pressure", "Temperature"],
    rows := [[Cell.str "A", Cell.str "Pump", Cell.num 1, Cell.str "bad", Cell.num 1],
             [Cell.str "B", Cell.str "Pump", Cell.num 1, Cell.num 1, Cell.num 1],
             [Cell.str "C", Cell.str "Pump", Cell.num 1, Cell.num 2, Cell.num 1],
             [Cell.str "D", Cell.str "Pump", Cell.num 1, Cell.num 3, Cell.num 1]] }

/-- The rows `csvDroppedRow` validates to: labels 1, 2, 3 survive. -/
def rowsDropped : List CleanRow :=
  [{ origIdx := 1, name := "B", etype := "Pump", flowrate := 1, pressure := 1, temperature := 1 },
   { origIdx := 2, name := "C", etype := "Pump", flowrate := 1, pressure := 2, temperature := 1 },
   { origIdx := 3, name := "D", etype := "Pump", flowrate := 1, pressure := 3, temperature := 1 }]

/-- A store already holding five datasets (ids 0–4, timestamps 0–4). -/
def storeFive : Store :=
  { datasets := [⟨0, "a", 0, 0, 0, 0, 0⟩, ⟨1, "a", 1, 0, 0, 0, 0⟩, ⟨2, "a", 2, 0, 0, 0, 0⟩,
                 ⟨3, "a", 3, 0, 0, 0, 0⟩, ⟨4, "a", 4, 0, 0, 0, 0⟩],
    equipment := [], nextId := 5, now := 5 }

/-- The store after ingesting `csvPumpExact` into `storeFive`: the new
dataset (id 5) is retained, the oldest dataset (id 0) is evicted. -/
def storeSix : Store :=
  { datasets := [⟨5, "w.csv", 5, 1, 1, 2, 3⟩, ⟨1, "a", 1, 0, 0, 0, 0⟩, ⟨2, "a", 2, 0, 0, 0, 0⟩,
                 ⟨3, "a", 3, 0, 0, 0, 0⟩, ⟨4, "a", 4, 0, 0, 0, 0⟩],
    equipment := [⟨5, "P2", "Pump", 1, 2, 3, false, false⟩],
    nextId := 6, now := 6 }

/-- A dataset row for the scatter-data claim. -/
def dsScatter : DatasetRec := ⟨0, "s.csv", 0, 2, 0, 0, 0⟩

/-- Equipment with flowrate 60 (bubble radius 4). -/
def eqScatterA : EquipRec := ⟨0, "a", "Pump", 60, 7, 8, false, false⟩

/-- Equipment with flowrate 15 (bubble radius clamped to 2). -/
def eqScatterB : EquipRec := ⟨0, "b", "Other", 15, 9, 10, true, false⟩

/-- A one-dataset store with two equipment rows. -/
def storeScatter : Store := ⟨[dsScatter], [eqScatterA, eqScatterB], 1, 1⟩

/-- A three-row table whose `Pressure` column is constant (zero variance). -/
def csvConstPressure : ParsedCsv :=
  { columns := ["Equipment Name", "Type", "Flowrate", "Pressure", "Temperature"],
    rows := [[Cell.str "a", Cell.str "Pump", Cell.num 1, Cell.num 5, Cell.num 1],
             [Cell.str "b", Cell.str "Pump", Cell.num 2, Cell.num 5, Cell.num 2],
             [Cell.str "c", Cell.str "Pump", Cell.num 3, Cell.num 5, Cell.num 4]] }

/-- The dataset row ingesting `csvConstPressure` creates
(`round(7/3, 2) = 2.33`). -/
def dsConstP : DatasetRec := ⟨0, "g.csv", 0, 3, 2, 5, 233 / 100⟩

/-- The equipment rows ingesting `csvConstPressure` creates. -/
def eqsConstP : List EquipRec :=
  [⟨0, "a", "Pump", 1, 5, 1, false, false⟩, ⟨0, "b", "Pump", 2, 5, 2, false, false⟩,
   ⟨0, "c", "Pump", 3, 5, 4, false, false⟩]

/-- The store after ingesting `csvConstPressure` into an empty store. -/
def storeConstP : Store := ⟨[dsConstP], eqsConstP, 1, 1⟩

/-- The rows `csvConstPressure` validates to. -/
def rowsConstP : List CleanRow :=
  [{ origIdx := 0, name := "a", etype := "Pump", flowrate := 1, pressure := 5, temperature := 1 },
   { origIdx := 1, name := "b", etype := "Pump", flowrate := 2, pressure := 5, temperature := 2 },
   { origIdx := 2, name := "c", etype := "Pump", flowrate := 3, pressure := 5, temperature := 4 }]

/-! ### Helper lemmas -/

/-- Faithfulness of the squared Z-score test: for a positive variance,
`zOver` decides exactly the float comparison
`abs(value - mean) / std > threshold` with `std = sqrt(variance)`. -/
theorem zOver_spec (d v t : ℚ) (hv : 0 < v) :
    zOver d v t = true ↔ (t : ℝ) < |(d : ℝ)| / Real.sqrt (v : ℝ) := by
  have hvR : (0 : ℝ) < (v : ℚ) := by exact_mod_cast hv
  have hs : (0 : ℝ) < Real.sqrt (v : ℝ) := Real.sqrt_pos.mpr hvR
  have hsq : Real.sqrt (v : ℝ) ^ 2 = (v : ℝ) := Real.sq_sqrt hvR.le
  rw [lt_div_iff₀ hs]
  rcases lt_or_le t 0 with ht | ht
  · have htR : (t : ℝ) < 0 := by exact_mod_cast ht
    have hneg : (t : ℝ) * Real.sqrt (v : ℝ) < 0 := mul_neg_of_neg_of_pos htR hs
    have hz : zOver d v t = true := by simp [zOver, ht]
    rw [hz]
    exact ⟨fun _ => hneg.trans_le (abs_nonneg _), fun _ => rfl⟩
  · have htR : (0 : ℝ) ≤ (t : ℝ) := by exact_mod_cast ht
    have hz : zOver d v t = decide (t ^ 2 * v < d ^ 2) := by
      simp [zOver, not_lt.mpr ht]
    rw [hz, decide_eq_true_eq]
    constructor
    · intro h
      have hR : (t : ℝ) ^ 2 * (v : ℝ) < (d : ℝ) ^ 2 := by exact_mod_cast h
      nlinarith [sq_abs (d : ℝ), abs_nonneg (d : ℝ), mul_nonneg htR hs.le, hsq]
    · intro h
      have h2 : ((t : ℝ) * Real.sqrt (v : ℝ)) ^ 2 < |(d : ℝ)| ^ 2 :=
        pow_lt_pow_left₀ h (mul_nonneg htR hs.le) (by norm_num)
      have hR : (t : ℝ) ^ 2 * (v : ℝ) < (d : ℝ) ^ 2 := by
        calc (t : ℝ) ^ 2 * (v : ℝ) = ((t : ℝ) * Real.sqrt (v : ℝ)) ^ 2 := by
              rw [mul_pow, hsq]
          _ < |(d : ℝ)| ^ 2 := h2
          _ = (d : ℝ) ^ 2 := sq_abs _
      exact_mod_cast hR

theorem allSome_length {values : List (Option ℚ)} {vs : List ℚ}
    (h : allSome values = some vs) : vs.length = values.length := by
  induction values generalizing vs with
  | nil => simp [allSome] at h; simp [← h]
  | cons a t ih =>
    match a with
    | none => simp [allSome] at h
    | some q =>
      simp only [allSome] at h
      match ht : allSome t with
      | none => rw [ht] at h; simp at h
      | some qs =>
        rw [ht] at h
        simp only [Option.some.injEq] at h
        simp [← h, ih ht]

theorem allSome_of_none {values : List (Option ℚ)} (h : none ∈ values) :
    allSome values = none := by
  induction values with
  | nil => simp at h
  | cons a t ih =>
    match a with
    | none => simp [allSome]
    | some q =>
      simp only [List.mem_cons] at h
      rcases h with h | h
      · exact absurd h (by simp)
      · simp [allSome, ih h]

theorem allSome_const {values : List (Option ℚ)} {c : ℚ}
    (h : ∀ v ∈ values, v = some c) :
    allSome values = some (List.replicate values.length c) := by
  induction values with
  | nil => simp [allSome]
  | cons a t ih =>
    have ha := h a (by simp)
    subst ha
    have ht := ih (fun v hv => h v (by simp [hv]))
    simp [allSome, ht, List.replicate_succ]

theorem mean_replicate {n : ℕ} {c : ℚ} (hn : n ≠ 0) :
    mean (List.replicate n c) = c := by
  simp only [mean, List.sum_replicate, List.length_replicate, nsmul_eq_mul]
  field_simp

/-! ### C4 and C9 -/

/-- C4 (counterexample): on `[10, 10, 10, 10, 100]` with threshold 2.0 the
detector does *not* return the flag vector that is true exactly at the `100`
entry: with the sample standard deviation (`ddof=1`) the z-score of `100` is
`72 / sqrt 1620 ≈ 1.789 ≤ 2`, so nothing is flagged. -/
theorem detect_example_not_flagged :
    detect_outliers [some 10, some 10, some 10, some 10, some 100] 2
      ≠ [false, false, false, false, true] := by
  norm_num [detect_outliers, allSome, mean, zOver]

/-- C4 (amended): on `[10, 10, 10, 10, 100]` with threshold 2.0 the detector
returns all-false (the `100` entry's z-score `72 / sqrt 1620` is below 2). -/
theorem detect_example_all_false :
    detect_outliers [some 10, some 10, some 10, some 10, some 100] 2
      = List.replicate 5 false := by
  norm_num [detect_outliers, allSome, mean, zOver, List.replicate]

/-- C9: `detect_outliers` always returns as many flags as it was given
values, and returns all-false on fewer than 3 values, on NaN-poisoned input
(NaN mean/std), and on all-identical values (zero sample std) — for every
threshold. -/
theorem detect_outliers_contract (values : List (Option ℚ)) (t : ℚ) :
    (detect_outliers values t).length = values.length ∧
    (values.length < 3 →
      detect_outliers values t = List.replicate values.length false) ∧
    (none ∈ values →
      detect_outliers values t = List.replicate values.length false) ∧
    ((∃ c, ∀ v ∈ values, v = some c) →
      detect_outliers values t = List.replicate values.length false) := by
  refine ⟨?_, ?_, ?_, ?_⟩
  · unfold detect_outliers
    split
    · simp
    · cases hs : allSome values with
      | none => simp
      | some vs =>
        have hl := allSome_length hs
        split
        next heq => exact absurd heq (by simp)
        next qs heq =>
          obtain rfl : vs = qs := Option.some.inj heq
          simp only [apply_ite List.length, List.length_replicate, List.length_map, hl,
            ite_self]
  · intro h
    unfold detect_outliers
    simp [h]
  · intro h
    unfold detect_outliers
    split
    · rfl
    · rw [allSome_of_none h]
  · rintro ⟨c, hc⟩
    unfold detect_outliers
    split
    · rfl
    · rename_i hlen
      rw [allSome_const hc]
      have hn : values.length ≠ 0 := by omega
      have hm : mean (List.replicate values.length c) = c := mean_replicate hn
      simp only [hm]
      have hmap : (List.replicate values.length c).map (fun v => (v - c) ^ 2)
          = List.replicate values.length 0 := by
        simp [List.map_replicate]
      rw [hmap]
      simp [List.sum_replicate, List.length_replicate]

/-- C9 (witness): the contract applied at concrete inputs — a 2-element
list (too short), a NaN-poisoned list, and an all-identical list. -/
theorem detect_outliers_contract_witness :
    (detect_outliers [some 1, some 2] 0).length = 2 ∧
      detect_outliers [some 1, some 2] 0 = List.replicate 2 false ∧
      detect_outliers [some 1, none, some 2, some 3] 1 = List.replicate 4 false ∧
      detect_outliers [some 4, some 4, some 4] 1 = List.replicate 3 false :=
  ⟨(detect_outliers_contract [some 1, some 2] 0).1,
   (detect_outliers_contract [some 1, some 2] 0).2.1 (by decide),
   (detect_outliers_contract [some 1, none, some 2, some 3] 1).2.2.1 (by decide),
   (detect_outliers_contract [some 4, some 4, some 4] 1).2.2.2 ⟨4, by decide⟩⟩

/-! ### Validation lemmas, C5 and C6 -/

theorem cleanRows_mem {csv : ParsedCsv} {r : CleanRow} (h : r ∈ cleanRows csv) :
    ∃ row, csv.rows.get? r.origIdx = some row ∧
      r.name = cellText (cellAt csv row "Equipment Name") ∧
      r.etype = cellText (cellAt csv row "Type") := by
  unfold cleanRows at h
  rw [List.mem_filterMap] at h
  obtain ⟨p, hp, hf⟩ := h
  have hget : csv.rows.get? p.1 = some p.2 := List.mem_enum_iff_get?.mp hp
  rcases hF : toNumeric (cellAt csv p.2 "Flowrate") with _ | f <;> rw [hF] at hf
  · simp at hf
  rcases hP : toNumeric (cellAt csv p.2 "Pressure") with _ | pr <;> rw [hP] at hf
  · simp at hf
  rcases hT : toNumeric (cellAt csv p.2 "Temperature") with _ | te <;> rw [hT] at hf
  · simp at hf
  simp only [Option.some.injEq] at hf
  refine ⟨p.2, ?_, ?_, ?_⟩
  · rw [← hf]; simpa using hget
  · rw [← hf]
  · rw [← hf]

theorem validate_csv_ok {csv : ParsedCsv} {rows : List CleanRow}
    (h : validate_csv csv = .ok rows) :
    missingColumns csv = [] ∧ cleanRows csv ≠ [] ∧
      rows = (cleanRows csv).map (fun r => { r with etype := normalizeType r.etype }) := by
  unfold validate_csv validate_inner at h
  split_ifs at h with h1 h2
  exact ⟨not_ne_iff.mp h1, h2, by simpa using h.symm⟩

theorem validate_csv_error {csv : ParsedCsv} {msg : String}
    (h : validate_csv csv = .error msg) :
    msg = "CSV validation failed: "
        ++ ("Missing required columns: " ++ String.intercalate ", " (missingColumns csv)) ∨
      msg = "CSV validation failed: " ++ "No valid data rows found after cleaning" := by
  unfold validate_csv validate_inner at h
  split_ifs at h with h1 h2
  · exact Or.inl (by simpa using h.symm)
  · exact Or.inr (by simpa using h.symm)

theorem normalizeType_mem (t : String) : normalizeType t ∈ VALID_TYPES := by
  unfold normalizeType
  split
  · next hc => simpa using hc
  · decide

/-- C5 (counterexample): a `Type` cell holding lower-case `"pump"` is *not*
case-normalized to `"Pump"`: the validator compares it verbatim against the
enumeration and maps it to `"Other"`. -/
theorem type_lowercase_pump_maps_to_other :
    validate_csv csvPumpLower
        = .ok [{ origIdx := 0, name := "P1", etype := "Other",
                 flowrate := 1, pressure := 2, temperature := 3 }] ∧
      "Other" ≠ "Pump" := by
  constructor
  · decide
  · decide

/-- C5 (amended): the `Type` value of every validated row is compared
verbatim (no trimming, no case normalization) against the closed
enumeration; exact members are kept, every other value — including `"pump"`,
`" Pump "` and `"sprinkler"` — is mapped to `Other`; the normalized value is
always a member of the enumeration, and no `Type` value can make validation
fail (the only failures are missing columns and no-valid-rows). -/
theorem validate_type_mapping :
    (∀ (csv : ParsedCsv) (rows : List CleanRow), validate_csv csv = .ok rows →
      ∀ r ∈ rows,
        r.etype = normalizeType (rawTypeAt csv r.origIdx) ∧ r.etype ∈ VALID_TYPES) ∧
    (∀ (csv : ParsedCsv) (msg : String), validate_csv csv = .error msg →
      msg = "CSV validation failed: "
          ++ ("Missing required columns: " ++ String.intercalate ", " (missingColumns csv)) ∨
      msg = "CSV validation failed: " ++ "No valid data rows found after cleaning") ∧
    normalizeType "pump" = "Other" ∧ normalizeType " Pump " = "Other" ∧
    normalizeType "sprinkler" = "Other" ∧ normalizeType "Pump" = "Pump" := by
  refine ⟨?_, fun csv msg h => validate_csv_error h, by decide, by decide, by decide, by decide⟩
  intro csv rows h r hr
  obtain ⟨-, -, hrows⟩ := validate_csv_ok h
  subst hrows
  rw [List.mem_map] at hr
  obtain ⟨r0, hr0, hmap⟩ := hr
  obtain ⟨row, hget, -, htype⟩ := cleanRows_mem hr0
  have hraw : rawTypeAt csv r0.origIdx = r0.etype := by
    unfold rawTypeAt
    rw [hget, htype]
  subst hmap
  constructor
  · simp only [hraw]
  · exact normalizeType_mem _

/-- C5 (witness): the amended theorem applied to a concrete one-row table
with the exact value `"Pump"`, which validation keeps as `"Pump"`. -/
theorem validate_type_mapping_witness :
    validate_csv csvPumpExact = .ok [rowPumpExact] ∧
      rowPumpExact.etype = normalizeType (rawTypeAt csvPumpExact 0) ∧
      rowPumpExact.etype ∈ VALID_TYPES := by
  have h : validate_csv csvPumpExact = .ok [rowPumpExact] := by decide
  have h2 := validate_type_mapping.1 csvPumpExact [rowPumpExact] h rowPumpExact (by decide)
  exact ⟨h, h2.1, h2.2⟩

/-- C6: when the parsed header lacks required columns, `validate_csv` fails
with the validation error listing every missing column name (re-wrapped once
by the validator's own catch-all with the `CSV validation failed: ` prefix),
and `create_dataset_from_csv` propagates exactly that error, unchanged, to
its caller. -/
theorem missing_columns_error_propagated :
    ∀ (csv : ParsedCsv) (fn : String) (s : Store), missingColumns csv ≠ [] →
      validate_csv csv = .error ("CSV validation failed: "
        ++ ("Missing required columns: " ++ String.intercalate ", " (missingColumns csv))) ∧
      create_dataset_from_csv csv fn s
        = .error (.validation ("CSV validation failed: "
            ++ ("Missing required columns: " ++ String.intercalate ", " (missingColumns csv)))) ∧
      (∀ c, c ∈ missingColumns csv ↔ c ∈ REQUIRED_COLUMNS ∧ c ∉ csv.columns) := by
  intro csv fn s h
  have hv : validate_csv csv = .error ("CSV validation failed: "
      ++ ("Missing required columns: " ++ String.intercalate ", " (missingColumns csv))) := by
    unfold validate_csv validate_inner
    rw [if_pos h]
  refine ⟨hv, ?_, ?_⟩
  · unfold create_dataset_from_csv
    rw [hv]
  · intro c
    unfold missingColumns
    rw [List.mem_filter]
    simp

/-- C6 (witness): a table missing `Pressure` and `Temperature` fails with
the message naming both, and ingestion returns the same message. -/
theorem missing_columns_error_witness :
    missingColumns csvMissingPT = ["Pressure", "Temperature"] ∧
      validate_csv csvMissingPT
        = .error "CSV validation failed: Missing required columns: Pressure, Temperature" ∧
      create_dataset_from_csv csvMissingPT "f.csv" ⟨[], [], 0, 0⟩
        = .error (.validation
            "CSV validation failed: Missing required columns: Pressure, Temperature") := by
  have h := missing_columns_error_propagated csvMissingPT "f.csv" ⟨[], [], 0, 0⟩ (by decide)
  refine ⟨by decide, ?_, ?_⟩
  · rw [h.1]; decide
  · rw [h.2.1]; decide

/-! ### C1: flag alignment after dropped rows -/

/-- C1 (failing run): `csvDroppedRow` is accepted by the validator (three
rows survive, with pandas labels 1, 2, 3), but ingestion then indexes the
3-element outlier arrays with the surviving labels
(`pressure_outliers[idx]` for `idx = 3`), raising an uncaught `IndexError`
instead of returning a dataset with aligned flags. -/
theorem ingest_index_error_on_dropped_row :
    validate_csv csvDroppedRow = .ok rowsDropped ∧
      create_dataset_from_csv csvDroppedRow "f.csv" ⟨[], [], 0, 0⟩
        = .error IngestErr.indexError := by
  have hv : validate_csv csvDroppedRow = .ok rowsDropped := by decide
  refine ⟨hv, ?_⟩
  have hp : detect_outliers (rowsDropped.map (fun r => some r.pressure)) 2
      = [false, false, false] := by
    norm_num [rowsDropped, detect_outliers, allSome, mean, zOver, List.replicate]
  have ht : detect_outliers (rowsDropped.map (fun r => some r.temperature)) 2
      = [false, false, false] := by
    norm_num [rowsDropped, detect_outliers, allSome, mean, zOver, List.replicate]
  unfold create_dataset_from_csv
  rw [hv]
  simp only [hp, ht]
  have hb : buildEquipment 0 [false, false, false] [false, false, false] rowsDropped
      = .error IngestErr.indexError := by decide
  simp only [createDataset]
  rw [hb]

/-! ### Sorting lemmas -/

theorem insertLe_perm (le : α → α → Bool) (a : α) (l : List α) :
    List.Perm (insertLe le a l) (a :: l) := by
  induction l with
  | nil => simp [insertLe]
  | cons b t ih =>
    unfold insertLe
    split
    · exact List.Perm.refl _
    · exact (ih.cons b).trans (List.Perm.swap a b t)

theorem sortBy_perm (le : α → α → Bool) (l : List α) : List.Perm (sortBy le l) l := by
  induction l with
  | nil => exact List.Perm.refl _
  | cons a t ih => exact (insertLe_perm le a (sortBy le t)).trans (ih.cons a)

theorem insertLe_sorted {le : α → α → Bool}
    (htot : ∀ a b, le a b = true ∨ le b a = true)
    (htrans : ∀ a b c, le a b = true → le b c = true → le a c = true)
    (a : α) {l : List α} (hs : l.Pairwise (fun x y => le x y = true)) :
    (insertLe le a l).Pairwise (fun x y => le x y = true) := by
  induction l with
  | nil => simp [insertLe]
  | cons b t ih =>
    obtain ⟨hb, ht⟩ := List.pairwise_cons.mp hs
    unfold insertLe
    split
    next hab =>
      refine List.pairwise_cons.mpr ⟨?_, hs⟩
      intro x hx
      rcases List.mem_cons.mp hx with rfl | hx
      · exact hab
      · exact htrans a b x hab (hb x hx)
    next hab =>
      have hba : le b a = true := by
        rcases htot a b with h | h
        · exact absurd h hab
        · exact h
      refine List.pairwise_cons.mpr ⟨?_, ih ht⟩
      intro x hx
      rcases List.mem_cons.mp ((insertLe_perm le a t).mem_iff.mp hx) with rfl | hx'
      · exact hba
      · exact hb x hx'

theorem sortBy_sorted {le : α → α → Bool}
    (htot : ∀ a b, le a b = true ∨ le b a = true)
    (htrans : ∀ a b c, le a b = true → le b c = true → le a c = true)
    (l : List α) : (sortBy le l).Pairwise (fun x y => le x y = true) := by
  induction l with
  | nil => simp [sortBy]
  | cons a t ih => exact insertLe_sorted htot htrans a ih

/-- Membership in the `k`-prefix of a strictly descending list: exactly the
elements with fewer than `k` strictly larger keys. -/
theorem mem_take_of_sorted {key : α → ℕ} :
    ∀ (l : List α) (k : ℕ), l.Pairwise (fun a b => key b < key a) →
      ∀ x, (x ∈ l.take k ↔
        x ∈ l ∧ (l.filter (fun y => decide (key x < key y))).length < k) := by
  intro l
  induction l with
  | nil => intro k _ x; simp
  | cons a t ih =>
    intro k hp x
    obtain ⟨ha, ht⟩ := List.pairwise_cons.mp hp
    cases k with
    | zero => simp
    | succ j =>
      rw [List.take_succ_cons]
      constructor
      · intro hx
        rcases List.mem_cons.mp hx with rfl | hx
        · refine ⟨List.mem_cons_self _ _, ?_⟩
          have hnil : (x :: t).filter (fun y => decide (key x < key y)) = [] := by
            rw [List.filter_eq_nil_iff]
            intro y hy
            rcases List.mem_cons.mp hy with rfl | hy
            · simp
            · simpa using Nat.not_lt.mpr (ha y hy).le
          rw [hnil]
          exact Nat.succ_pos _
        · obtain ⟨hxt, hcnt⟩ := (ih j ht x).mp hx
          refine ⟨List.mem_cons_of_mem _ hxt, ?_⟩
          rw [List.filter_cons_of_pos (by simpa using ha x hxt)]
          simpa using Nat.succ_lt_succ hcnt
      · rintro ⟨hx, hcnt⟩
        rcases List.mem_cons.mp hx with rfl | hxt
        · exact List.mem_cons_self _ _
        · rw [List.filter_cons_of_pos (by simpa using ha x hxt)] at hcnt
          have hcnt' : (t.filter (fun y => decide (key x < key y))).length < j := by
            simpa using Nat.lt_of_succ_lt_succ hcnt
          exact List.mem_cons_of_mem _ ((ih j ht x).mpr ⟨hxt, hcnt'⟩)

/-- The dataset-id filter that `maintain_dataset_limit` applies. -/
theorem keep_characterization {l : List DatasetRec}
    (hts : l.Pairwise (fun a b => a.uploaded_at ≠ b.uploaded_at))
    (hid : l.Pairwise (fun a b => a.id ≠ b.id)) :
    (∀ d, (d ∈ l.filter (fun x =>
        (((recentDesc l).take 5).map (fun d => d.id)).contains x.id))
      ↔ d ∈ l ∧
        (l.filter (fun y => decide (d.uploaded_at < y.uploaded_at))).length < 5) ∧
    (l.filter (fun x =>
        (((recentDesc l).take 5).map (fun d => d.id)).contains x.id)).length
      = min 5 l.length := by
  have hperm : List.Perm (recentDesc l) l := sortBy_perm _ l
  have htot : ∀ a b : DatasetRec,
      decide (b.uploaded_at ≤ a.uploaded_at) = true
        ∨ decide (a.uploaded_at ≤ b.uploaded_at) = true := by
    intro a b
    rcases Nat.le_total b.uploaded_at a.uploaded_at with h | h
    · exact Or.inl (by simpa using h)
    · exact Or.inr (by simpa using h)
  have htrans : ∀ a b c : DatasetRec,
      decide (b.uploaded_at ≤ a.uploaded_at) = true →
      decide (c.uploaded_at ≤ b.uploaded_at) = true →
      decide (c.uploaded_at ≤ a.uploaded_at) = true := by
    intro a b c h1 h2
    simp only [decide_eq_true_eq] at h1 h2 ⊢
    exact h2.trans h1
  have hsorted := sortBy_sorted htot htrans l
  have hsymmT : Symmetric (fun a b : DatasetRec => a.uploaded_at ≠ b.uploaded_at) :=
    fun _ _ h => Ne.symm h
  have hsymmI : Symmetric (fun a b : DatasetRec => a.id ≠ b.id) :=
    fun _ _ h => Ne.symm h
  have hts' : (recentDesc l).Pairwise (fun a b => a.uploaded_at ≠ b.uploaded_at) :=
    (hperm.pairwise_iff (fun h => Ne.symm h)).mpr hts
  have hid' : (recentDesc l).Pairwise (fun a b => a.id ≠ b.id) :=
    (hperm.pairwise_iff (fun h => Ne.symm h)).mpr hid
  have hstrict : (recentDesc l).Pairwise (fun a b => b.uploaded_at < a.uploaded_at) := by
    refine (hsorted.and hts').imp ?_
    rintro a b ⟨h1, h2⟩
    exact lt_of_le_of_ne (by simpa using h1) (Ne.symm h2)
  have hContains : ∀ (ks : List ℕ) (n : ℕ), ks.contains n = true ↔ n ∈ ks := by
    intro ks n; simp
  have hMemIff : ∀ d, (d ∈ l.filter (fun x =>
      (((recentDesc l).take 5).map (fun d => d.id)).contains x.id)) ↔
      d ∈ l ∧ d ∈ (recentDesc l).take 5 := by
    intro d
    rw [List.mem_filter]
    constructor
    · rintro ⟨hdl, hP⟩
      rw [hContains, List.mem_map] at hP
      obtain ⟨z, hz, hzid⟩ := hP
      have hzl : z ∈ l := hperm.mem_iff.mp (List.take_subset 5 _ hz)
      have hzd : z = d := by
        by_contra hne
        exact hid.forall (fun _ _ h => Ne.symm h) hzl hdl hne hzid
      exact ⟨hdl, hzd ▸ hz⟩
    · rintro ⟨hdl, hdt⟩
      exact ⟨hdl, (hContains _ _).mpr (List.mem_map.mpr ⟨d, hdt, rfl⟩)⟩
  have hCount : ∀ d : DatasetRec, ((recentDesc l).filter
      (fun y => decide (d.uploaded_at < y.uploaded_at))).length
      = (l.filter (fun y => decide (d.uploaded_at < y.uploaded_at))).length :=
    fun d => (hperm.filter _).length_eq
  constructor
  · intro d
    rw [hMemIff d, mem_take_of_sorted (recentDesc l) 5 hstrict d, hperm.mem_iff, hCount d]
    tauto
  · have hsplit : (recentDesc l).take 5 ++ (recentDesc l).drop 5 = recentDesc l :=
      List.take_append_drop 5 _
    have hnd : (recentDesc l).Nodup := hid'.imp (fun h he => h (congrArg DatasetRec.id he))
    have hdisj : List.Disjoint ((recentDesc l).take 5) ((recentDesc l).drop 5) := by
      apply List.disjoint_of_nodup_append
      rw [hsplit]
      exact hnd
    set K : List ℕ := ((recentDesc l).take 5).map (fun d => d.id) with hK
    have h1 : ((recentDesc l).take 5).filter (fun x => K.contains x.id)
        = (recentDesc l).take 5 := by
      rw [List.filter_eq_self]
      intro x hx
      exact (hContains _ _).mpr (hK ▸ List.mem_map.mpr ⟨x, hx, rfl⟩)
    have h2 : ((recentDesc l).drop 5).filter (fun x => K.contains x.id) = [] := by
      rw [List.filter_eq_nil_iff]
      intro y hy hP
      rw [hContains, hK, List.mem_map] at hP
      obtain ⟨z, hz, hzid⟩ := hP
      have hzy : z ≠ y := fun he => hdisj (he ▸ hz) hy
      exact hid'.forall (fun _ _ h => Ne.symm h)
        (List.take_subset 5 _ hz) (List.drop_subset 5 _ hy) hzy hzid
    have hfilter_eq : (recentDesc l).filter (fun x => K.contains x.id)
        = (recentDesc l).take 5 := by
      rw [← hsplit, List.filter_append, h1, h2, List.append_nil, hsplit]
    calc (l.filter (fun x => K.contains x.id)).length
        = ((recentDesc l).filter (fun x => K.contains x.id)).length :=
          ((hperm.filter _)).length_eq.symm
      _ = ((recentDesc l).take 5).length := by rw [hfilter_eq]
      _ = min 5 (recentDesc l).length := List.length_take 5 _
      _ = min 5 l.length := by rw [hperm.length_eq]

/-! ### Ingestion dissection, C2 and C3 -/

theorem buildEquipment_ok {did : ℕ} {pOut tOut : List Bool} :
    ∀ {rows : List CleanRow} {es : List EquipRec},
      buildEquipment did pOut tOut rows = .ok es →
      es.length = rows.length ∧ ∀ e ∈ es, e.dataset_id = did := by
  intro rows
  induction rows with
  | nil =>
    intro es h
    unfold buildEquipment at h
    simp only [Except.ok.injEq] at h
    subst h
    simp
  | cons r rest ih =>
    intro es h
    unfold buildEquipment at h
    cases hP : pOut.get? r.origIdx with
    | none => rw [hP] at h; simp at h
    | some pf =>
      cases hT : tOut.get? r.origIdx with
      | none => rw [hP, hT] at h; simp at h
      | some tf =>
        rw [hP, hT] at h
        cases hB : buildEquipment did pOut tOut rest with
        | error e => rw [hB] at h; simp at h
        | ok es' =>
          rw [hB] at h
          simp only [Except.ok.injEq] at h
          subst h
          obtain ⟨hlen, hmem⟩ := ih hB
          refine ⟨by simp [hlen], ?_⟩
          intro e he
          rcases List.mem_cons.mp he with rfl | he
          · rfl
          · exact hmem e he

theorem create_ok_cases {csv : ParsedCsv} {fn : String} {s s' : Store} {id : ℕ}
    (h : create_dataset_from_csv csv fn s = .ok (s', id)) :
    ∃ rows es,
      validate_csv csv = .ok rows ∧
      buildEquipment s.nextId
        (detect_outliers (rows.map (fun r => some r.pressure)) 2)
        (detect_outliers (rows.map (fun r => some r.temperature)) 2) rows = .ok es ∧
      id = s.nextId ∧
      s' = { datasets := (newDataset s fn rows :: s.datasets).filter (fun d =>
               (((recentDesc (newDataset s fn rows :: s.datasets)).take 5).map
                 (fun d => d.id)).contains d.id),
             equipment := s.equipment.filter (fun e =>
               (((recentDesc (newDataset s fn rows :: s.datasets)).take 5).map
                 (fun d => d.id)).contains e.dataset_id) ++ es,
             nextId := s.nextId + 1, now := s.now + 1 } := by
  unfold create_dataset_from_csv at h
  cases hv : validate_csv csv with
  | error m => rw [hv] at h; simp at h
  | ok rows =>
    rw [hv] at h
    simp only [createDataset, maintain_dataset_limit] at h
    cases hb : buildEquipment s.nextId
        (detect_outliers (rows.map (fun r => some r.pressure)) 2)
        (detect_outliers (rows.map (fun r => some r.temperature)) 2) rows with
    | error e => rw [hb] at h; simp at h
    | ok es =>
      rw [hb] at h
      simp only [Except.ok.injEq, Prod.mk.injEq] at h
      refine ⟨rows, es, rfl, hb, h.2.symm, ?_⟩
      rw [← h.1]
      simp [newDataset]

theorem all_pairwise {s : Store} (hinv : StoreInv s) {nd : DatasetRec}
    (hndid : nd.id = s.nextId) (hndts : nd.uploaded_at = s.now) :
    (nd :: s.datasets).Pairwise (fun a b => a.uploaded_at ≠ b.uploaded_at) ∧
    (nd :: s.datasets).Pairwise (fun a b => a.id ≠ b.id) := by
  obtain ⟨h1, h2, h3⟩ := hinv
  constructor
  · refine List.pairwise_cons.mpr ⟨?_, h3.imp (fun h => h.2)⟩
    intro d hd
    rw [hndts]
    exact (h1 d hd).1.ne'
  · refine List.pairwise_cons.mpr ⟨?_, h3.imp (fun h => h.1)⟩
    intro d hd
    rw [hndid]
    exact (h1 d hd).2.ne'

theorem nd_kept {s : Store} (hinv : StoreInv s) {nd : DatasetRec}
    (hndid : nd.id = s.nextId) (hndts : nd.uploaded_at = s.now) :
    nd ∈ (nd :: s.datasets).filter (fun x =>
      (((recentDesc (nd :: s.datasets)).take 5).map (fun d => d.id)).contains x.id) := by
  obtain ⟨hpt, hpi⟩ := all_pairwise hinv hndid hndts
  refine ((keep_characterization hpt hpi).1 nd).mpr ⟨List.mem_cons_self _ _, ?_⟩
  have hnil : (nd :: s.datasets).filter
      (fun y => decide (nd.uploaded_at < y.uploaded_at)) = [] := by
    rw [List.filter_eq_nil_iff]
    intro y hy
    rcases List.mem_cons.mp hy with rfl | hy
    · simp
    · simpa [hndts] using Nat.not_lt.mpr (hinv.1 y hy).1.le
  rw [hnil]
  simp

/-- C2: ingestion is atomic.  Every call either fails — and then the
caller's observable store is exactly the pre-call store, nothing of the call
persisted — or succeeds, and then the committed store holds the new dataset
row together with equipment rows for *all* validated rows (one per row, never
a partial set). -/
theorem ingest_atomic (csv : ParsedCsv) (fn : String) (s : Store) (hinv : StoreInv s) :
    (∃ e, create_dataset_from_csv csv fn s = .error e ∧
        committed s (create_dataset_from_csv csv fn s) = s) ∨
    (∃ s' rows, create_dataset_from_csv csv fn s = .ok (s', s.nextId) ∧
        committed s (create_dataset_from_csv csv fn s) = s' ∧
        validate_csv csv = .ok rows ∧
        (∃ d ∈ s'.datasets, d.id = s.nextId ∧ d.filename = fn ∧
            d.total_equipment = rows.length) ∧
        (s'.equipment.filter (fun e => e.dataset_id == s.nextId)).length
          = rows.length) := by
  cases hr : create_dataset_from_csv csv fn s with
  | error e => exact Or.inl ⟨e, rfl, rfl⟩
  | ok p =>
    obtain ⟨s', id⟩ := p
    obtain ⟨rows, es, hv, hb, hid, hstore⟩ := create_ok_cases hr
    subst hid
    refine Or.inr ⟨s', rows, rfl, rfl, hv, ?_, ?_⟩
    · refine ⟨newDataset s fn rows, ?_, rfl, rfl, rfl⟩
      rw [hstore]
      exact nd_kept hinv rfl rfl
    · rw [hstore]
      simp only [List.filter_append]
      have hold : (s.equipment.filter (fun e =>
          (((recentDesc (newDataset s fn rows :: s.datasets)).take 5).map
            (fun d => d.id)).contains e.dataset_id)).filter
          (fun e => e.dataset_id == s.nextId) = [] := by
        rw [List.filter_eq_nil_iff]
        intro e he hbe
        have he' : e ∈ s.equipment := List.mem_of_mem_filter he
        have hlt : e.dataset_id < s.nextId := hinv.2.1 e he'
        simp only [beq_iff_eq] at hbe
        omega
      have hes : es.filter (fun e => e.dataset_id == s.nextId) = es := by
        rw [List.filter_eq_self]
        intro e he
        simp [(buildEquipment_ok hb).2 e he]
      rw [hold, hes]
      simpa using (buildEquipment_ok hb).1

/-- C3: after a successful ingestion from a well-formed store, the stored
datasets are exactly those of the candidate pool (the new dataset plus the
previous ones) with fewer than five strictly more recent timestamps; the
just-committed dataset is always retained (never self-evicted); at most five
datasets remain; no equipment row of any evicted dataset survives, and every
surviving equipment row belongs to a retained dataset. -/
theorem retention_after_ingest (csv : ParsedCsv) (fn : String) (s s' : Store) (id : ℕ)
    (hinv : StoreInv s) (hok : create_dataset_from_csv csv fn s = .ok (s', id)) :
    ∃ nd, nd ∈ s'.datasets ∧ nd.id = id ∧ nd.uploaded_at = s.now ∧
      (∀ d, d ∈ s'.datasets ↔
        d ∈ nd :: s.datasets ∧
        ((nd :: s.datasets).filter
          (fun y => decide (d.uploaded_at < y.uploaded_at))).length < 5) ∧
      s'.datasets.length = min 5 (s.datasets.length + 1) ∧
      (∀ e ∈ s'.equipment, ∃ d ∈ s'.datasets, e.dataset_id = d.id) ∧
      (∀ d ∈ s.datasets, d ∉ s'.datasets → ∀ e ∈ s'.equipment, e.dataset_id ≠ d.id) := by
  obtain ⟨rows, es, hv, hb, hid, hstore⟩ := create_ok_cases hok
  subst hid
  obtain ⟨hpt, hpi⟩ := @all_pairwise s hinv (newDataset s fn rows) rfl rfl
  have hchar := keep_characterization hpt hpi
  refine ⟨newDataset s fn rows, ?_, rfl, rfl, ?_, ?_, ?_, ?_⟩
  · rw [hstore]
    exact nd_kept hinv rfl rfl
  · intro d
    rw [hstore]
    exact hchar.1 d
  · rw [hstore]
    simpa using hchar.2
  · intro e he
    rw [hstore] at he ⊢
    rcases List.mem_append.mp he with he | he
    · obtain ⟨he', hc⟩ := List.mem_filter.mp he
      have : e.dataset_id ∈ ((recentDesc (newDataset s fn rows :: s.datasets)).take 5).map
          (fun d => d.id) := by simpa using hc
      obtain ⟨z, hz, hzid⟩ := List.mem_map.mp this
      have hzall : z ∈ newDataset s fn rows :: s.datasets :=
        (sortBy_perm _ _).mem_iff.mp (List.take_subset 5 _ hz)
      refine ⟨z, ?_, hzid.symm⟩
      exact List.mem_filter.mpr ⟨hzall, by simpa using List.mem_map.mpr ⟨z, hz, rfl⟩⟩
    · refine ⟨newDataset s fn rows, nd_kept hinv rfl rfl, ?_⟩
      exact (buildEquipment_ok hb).2 e he
  · intro d hd hnotin e he
    rw [hstore] at he hnotin
    intro hedid
    rcases List.mem_append.mp he with he' | he'
    · obtain ⟨he'', hc⟩ := List.mem_filter.mp he'
      have : e.dataset_id ∈ ((recentDesc (newDataset s fn rows :: s.datasets)).take 5).map
          (fun d => d.id) := by simpa using hc
      obtain ⟨z, hz, hzid⟩ := List.mem_map.mp this
      have hzall : z ∈ newDataset s fn rows :: s.datasets :=
        (sortBy_perm _ _).mem_iff.mp (List.take_subset 5 _ hz)
      have hzkept : z ∈ (newDataset s fn rows :: s.datasets).filter (fun x =>
          (((recentDesc (newDataset s fn rows :: s.datasets)).take 5).map
            (fun d => d.id)).contains x.id) :=
        List.mem_filter.mpr ⟨hzall, by simpa using List.mem_map.mpr ⟨z, hz, rfl⟩⟩
      have hzd : z ≠ d := fun hzd => hnotin (hzd ▸ hzkept)
      have : z.id ≠ d.id :=
        hpi.forall (fun _ _ h => Ne.symm h) hzall (List.mem_cons_of_mem _ hd) hzd
      exact this (hzid.trans hedid)
    · have hnd : e.dataset_id = s.nextId := (buildEquipment_ok hb).2 e he'
      have hlt : d.id < s.nextId := (hinv.1 d hd).2
      omega

/-- C2 (witness): atomicity instantiated at an empty store and a one-row
table. -/
theorem ingest_atomic_witness :
    StoreInv ⟨[], [], 0, 0⟩ ∧
      ((∃ e, create_dataset_from_csv csvPumpExact "f.csv" ⟨[], [], 0, 0⟩ = .error e ∧
          committed ⟨[], [], 0, 0⟩
            (create_dataset_from_csv csvPumpExact "f.csv" ⟨[], [], 0, 0⟩) = ⟨[], [], 0, 0⟩) ∨
        (∃ s' rows,
          create_dataset_from_csv csvPumpExact "f.csv" ⟨[], [], 0, 0⟩ = .ok (s', 0) ∧
          committed ⟨[], [], 0, 0⟩
            (create_dataset_from_csv csvPumpExact "f.csv" ⟨[], [], 0, 0⟩) = s' ∧
          validate_csv csvPumpExact = .ok rows ∧
          (∃ d ∈ s'.datasets, d.id = 0 ∧ d.filename = "f.csv" ∧
              d.total_equipment = rows.length) ∧
          (s'.equipment.filter (fun e => e.dataset_id == 0)).length = rows.length)) :=
  ⟨by decide, ingest_atomic csvPumpExact "f.csv" ⟨[], [], 0, 0⟩ (by decide)⟩

theorem ingest_storeFive :
    create_dataset_from_csv csvPumpExact "w.csv" storeFive = .ok (storeSix, 5) := by
  have hv : validate_csv csvPumpExact = .ok [rowPumpExact] := by decide
  unfold create_dataset_from_csv
  rw [hv]
  have hdetP : detect_outliers ([rowPumpExact].map (fun r => some r.pressure)) 2
      = [false] := by decide
  have hdetT : detect_outliers ([rowPumpExact].map (fun r => some r.temperature)) 2
      = [false] := by decide
  simp only [hdetP, hdetT, createDataset]
  have hbuild : buildEquipment storeFive.nextId [false] [false] [rowPumpExact]
      = .ok [⟨5, "P2", "Pump", 1, 2, 3, false, false⟩] := by decide
  simp only [hbuild]
  have havF : round2 (mean ([rowPumpExact].map (fun r => r.flowrate))) = 1 := by
    norm_num [rowPumpExact, mean, round2, roundHalfEven]
  have havP : round2 (mean ([rowPumpExact].map (fun r => r.pressure))) = 2 := by
    norm_num [rowPumpExact, mean, round2, roundHalfEven]
  have havT : round2 (mean ([rowPumpExact].map (fun r => r.temperature))) = 3 := by
    norm_num [rowPumpExact, mean, round2, roundHalfEven]
  simp only [havF, havP, havT]
  norm_num [storeFive, storeSix, maintain_dataset_limit, recentDesc, sortBy, insertLe,
    rowPumpExact, List.filter]

/-- C3 (witness): ingesting a sixth dataset into a well-formed store holding
five leaves exactly five datasets, the newly committed one among them. -/
theorem retention_after_ingest_witness :
    StoreInv storeFive ∧
      create_dataset_from_csv csvPumpExact "w.csv" storeFive = .ok (storeSix, 5) ∧
      storeSix.datasets.length = min 5 (storeFive.datasets.length + 1) ∧
      (∃ nd, nd ∈ storeSix.datasets ∧ nd.id = 5 ∧ nd.uploaded_at = 5) := by
  have hinv : StoreInv storeFive := by decide
  have hok := ingest_storeFive
  obtain ⟨nd, hmem, hid, hts, -, hlen, -, -⟩ :=
    retention_after_ingest csvPumpExact "w.csv" storeFive storeSix 5 hinv hok
  exact ⟨hinv, hok, hlen, nd, hmem, hid, hts⟩

/-! ### Analytics lemmas, C10 -/

theorem get_analytics_ok {s : Store} {id : ℕ} {p : Payload}
    (h : get_analytics s id = .ok p) :
    ∃ d, findDataset s id = some d ∧ equipmentOf s id ≠ [] ∧
      p = mkPayload d (equipmentOf s id) := by
  unfold get_analytics at h
  cases hf : findDataset s id with
  | none => rw [hf] at h; simp at h
  | some d =>
    rw [hf] at h
    split_ifs at h with he
    exact ⟨d, rfl, he, by simpa using h.symm⟩

/-- C10: for every dataset on which analytics succeeds, the scatter list has
one point per equipment row (in the query's name order), with `x` the row's
pressure, `y` its temperature and radius `r = max(2, flowrate / 15)`; `r` is
bounded below by 2 and equals `flowrate / 15` exactly when the flowrate is at
least 30. -/
theorem scatter_points (s : Store) (id : ℕ) (p : Payload)
    (h : get_analytics s id = .ok p) :
    p.scatter_data = scatterData (equipmentOf s id) ∧
    ∀ i e, (equipmentOf s id).get? i = some e →
      p.scatter_data.get? i
        = some ⟨e.pressure, e.temperature, max 2 (e.flowrate / 15),
            e.equipment_name, e.equipment_type⟩ ∧
      (2 : ℚ) ≤ max 2 (e.flowrate / 15) ∧
      (max 2 (e.flowrate / 15) = e.flowrate / 15 ↔ 30 ≤ e.flowrate) := by
  obtain ⟨d, hf, hne, hp⟩ := get_analytics_ok h
  subst hp
  refine ⟨rfl, ?_⟩
  intro i e hie
  refine ⟨?_, le_max_left _ _, ?_⟩
  · show (scatterData (equipmentOf s id)).get? i = _
    unfold scatterData
    rw [List.get?_map, hie]
    rfl
  · rw [max_eq_right_iff, le_div_iff₀ (by norm_num : (0:ℚ) < 15)]
    norm_num

theorem get_analytics_storeScatter :
    get_analytics storeScatter 0 = .ok (mkPayload dsScatter [eqScatterA, eqScatterB]) := by
  have he : equipmentOf storeScatter 0 = [eqScatterA, eqScatterB] := by decide
  have hf : findDataset storeScatter 0 = some dsScatter := by decide
  unfold get_analytics
  rw [hf, he]
  rfl

/-- C10 (witness): the scatter claim at a concrete store — flowrate 60 gives
radius 4 and flowrate 15 is clamped to radius 2. -/
theorem scatter_points_witness :
    get_analytics storeScatter 0 = .ok (mkPayload dsScatter [eqScatterA, eqScatterB]) ∧
      (mkPayload dsScatter [eqScatterA, eqScatterB]).scatter_data
        = scatterData (equipmentOf storeScatter 0) ∧
      ((2 : ℚ) ≤ max 2 (eqScatterA.flowrate / 15) ∧
        (max 2 (eqScatterA.flowrate / 15) = eqScatterA.flowrate / 15 ↔
          30 ≤ eqScatterA.flowrate)) ∧
      (mkPayload dsScatter [eqScatterA, eqScatterB]).scatter_data.get? 1
        = some ⟨eqScatterB.pressure, eqScatterB.temperature,
            max 2 (eqScatterB.flowrate / 15), eqScatterB.equipment_name,
            eqScatterB.equipment_type⟩ := by
  have h := get_analytics_storeScatter
  have h2 := scatter_points storeScatter 0 _ h
  refine ⟨h, h2.1, ?_, ?_⟩
  · exact (h2.2 0 eqScatterA (by decide)).2
  · exact (h2.2 1 eqScatterB (by decide)).1

/-! ### Order-statistic lemmas, C7 -/

theorem foldl_min_spec (t : List ℚ) : ∀ a : ℚ,
    t.foldl min a ∈ a :: t ∧ t.foldl min a ≤ a ∧ ∀ x ∈ t, t.foldl min a ≤ x := by
  induction t with
  | nil => intro a; simp
  | cons b t' ih =>
    intro a
    rw [List.foldl_cons]
    obtain ⟨hmem, hle, hall⟩ := ih (min a b)
    refine ⟨?_, hle.trans (min_le_left a b), ?_⟩
    · rcases List.mem_cons.mp hmem with h | h
      · rcases min_choice a b with hc | hc
        · rw [h, hc]; exact List.mem_cons_self _ _
        · rw [h, hc]; exact List.mem_cons_of_mem _ (List.mem_cons_self _ _)
      · exact List.mem_cons_of_mem _ (List.mem_cons_of_mem _ h)
    · intro x hx
      rcases List.mem_cons.mp hx with rfl | hx
      · exact hle.trans (min_le_right a x)
      · exact hall x hx

theorem foldl_max_spec (t : List ℚ) : ∀ a : ℚ,
    t.foldl max a ∈ a :: t ∧ a ≤ t.foldl max a ∧ ∀ x ∈ t, x ≤ t.foldl max a := by
  induction t with
  | nil => intro a; simp
  | cons b t' ih =>
    intro a
    rw [List.foldl_cons]
    obtain ⟨hmem, hle, hall⟩ := ih (max a b)
    refine ⟨?_, (le_max_left a b).trans hle, ?_⟩
    · rcases List.mem_cons.mp hmem with h | h
      · rcases max_choice a b with hc | hc
        · rw [h, hc]; exact List.mem_cons_self _ _
        · rw [h, hc]; exact List.mem_cons_of_mem _ (List.mem_cons_self _ _)
      · exact List.mem_cons_of_mem _ (List.mem_cons_of_mem _ h)
    · intro x hx
      rcases List.mem_cons.mp hx with rfl | hx
      · exact (le_max_right a x).trans hle
      · exact hall x hx

theorem listMin_spec {l : List ℚ} (h : l ≠ []) :
    listMin l ∈ l ∧ ∀ x ∈ l, listMin l ≤ x := by
  match l, h with
  | a :: t, _ =>
    obtain ⟨hmem, hle, hall⟩ := foldl_min_spec t a
    refine ⟨hmem, ?_⟩
    intro x hx
    rcases List.mem_cons.mp hx with rfl | hx
    · exact hle
    · exact hall x hx

theorem listMax_spec {l : List ℚ} (h : l ≠ []) :
    listMax l ∈ l ∧ ∀ x ∈ l, x ≤ listMax l := by
  match l, h with
  | a :: t, _ =>
    obtain ⟨hmem, hle, hall⟩ := foldl_max_spec t a
    refine ⟨hmem, ?_⟩
    intro x hx
    rcases List.mem_cons.mp hx with rfl | hx
    · exact hle
    · exact hall x hx

theorem sortQ_perm (l : List ℚ) : List.Perm (sortQ l) l := sortBy_perm _ l

theorem sortQ_sorted (l : List ℚ) :
    (sortQ l).Pairwise (fun a b => decide (a ≤ b) = true) := by
  refine sortBy_sorted ?_ ?_ l
  · intro a b
    rcases le_total a b with h | h
    · exact Or.inl (by simpa using h)
    · exact Or.inr (by simpa using h)
  · intro a b c h1 h2
    simp only [decide_eq_true_eq] at h1 h2 ⊢
    exact h1.trans h2

theorem sortQ_ne_nil {l : List ℚ} (h : l ≠ []) : sortQ l ≠ [] := by
  intro he
  apply h
  have hl := (sortQ_perm l).length_eq
  rw [he] at hl
  exact List.length_eq_zero.mp hl.symm

theorem sortQ_head_min {l : List ℚ} {x : ℚ} {xs : List ℚ} (h : sortQ l = x :: xs) :
    x = listMin l := by
  have hperm := sortQ_perm l
  have hsorted := sortQ_sorted l
  rw [h] at hperm hsorted
  have hxl : x ∈ l := hperm.mem_iff.mp (List.mem_cons_self _ _)
  have hl : l ≠ [] := by
    intro he
    rw [he] at hperm
    simpa using hperm.length_eq
  obtain ⟨hmin_mem, hmin_le⟩ := listMin_spec hl
  refine le_antisymm ?_ (hmin_le x hxl)
  rcases List.mem_cons.mp (hperm.mem_iff.mpr hmin_mem) with he | hxs
  · exact le_of_eq he.symm
  · simpa using (List.pairwise_cons.mp hsorted).1 _ hxs

theorem sorted_le_getLast :
    ∀ (s : List ℚ) (hne : s ≠ []), s.Pairwise (fun a b => decide (a ≤ b) = true) →
      ∀ x ∈ s, x ≤ s.getLast hne := by
  intro s
  induction s with
  | nil => intro hne; exact absurd rfl hne
  | cons a t ih =>
    intro hne hp x hx
    cases t with
    | nil =>
      have : x = a := by simpa using hx
      subst this
      simp [List.getLast]
    | cons b t' =>
      rw [List.getLast_cons (by simp)]
      obtain ⟨ha, ht⟩ := List.pairwise_cons.mp hp
      rcases List.mem_cons.mp hx with rfl | hx
      · have hmem := @List.getLast_mem ℚ (b :: t') (by simp)
        simpa using ha _ hmem
      · exact ih (by simp) ht x hx

theorem percentileLinear_zero {l : List ℚ} (h : l ≠ []) :
    percentileLinear l 0 = listMin l := by
  obtain ⟨x, xs, hxx⟩ := List.exists_cons_of_ne_nil (sortQ_ne_nil h)
  simp only [percentileLinear]
  rw [hxx]
  cases xs with
  | nil =>
    simp only [zero_mul, Int.floor_zero, Int.toNat_zero, List.get?]
    exact sortQ_head_min hxx
  | cons y ys =>
    simp only [zero_mul, Int.floor_zero, Int.toNat_zero, List.get?]
    rw [show (0 : ℚ) - ((0 : ℤ) : ℚ) = 0 by norm_num]
    rw [zero_mul, add_zero]
    exact sortQ_head_min hxx

theorem percentileLinear_one {l : List ℚ} (h : l ≠ []) :
    percentileLinear l 1 = listMax l := by
  have hne := sortQ_ne_nil h
  have hlen : 1 ≤ (sortQ l).length := List.length_pos.mpr hne
  simp only [percentileLinear, one_mul]
  have hcast : ((sortQ l).length : ℚ) - 1 = (((sortQ l).length - 1 : ℕ) : ℚ) := by
    rw [Nat.cast_sub hlen, Nat.cast_one]
  rw [hcast, Int.floor_natCast, Int.toNat_natCast]
  have hget : (sortQ l).get? ((sortQ l).length - 1)
      = some ((sortQ l).getLast hne) := by
    have hlt : (sortQ l).length - 1 < (sortQ l).length := by omega
    rw [List.get?_eq_get hlt, List.getLast_eq_get]
  have hnone : (sortQ l).get? ((sortQ l).length - 1 + 1) = none := by
    rw [List.get?_eq_none]
    omega
  rw [hget, hnone]
  have hlast_mem : (sortQ l).getLast hne ∈ l :=
    (sortQ_perm l).mem_iff.mp (List.getLast_mem hne)
  obtain ⟨hmax_mem, hmax_le⟩ := listMax_spec h
  refine le_antisymm (hmax_le _ hlast_mem) ?_
  exact sorted_le_getLast (sortQ l) hne (sortQ_sorted l) _
    ((sortQ_perm l).mem_iff.mpr hmax_mem)

theorem get_analytics_storeConstP :
    get_analytics storeConstP 0 = .ok (mkPayload dsConstP eqsConstP) := by
  have he : equipmentOf storeConstP 0 = eqsConstP := by decide
  have hf : findDataset storeConstP 0 = some dsConstP := by
    simp [findDataset, storeConstP, List.find?, dsConstP]
  unfold get_analytics
  rw [hf, he]
  rfl

/-- C7 (amended): the analytics payload carries exactly one quartile block —
min, Q1, median, Q3, max, each rounded to 2 decimals and computed by linear
interpolation between order statistics — and it is computed from the
flowrate column only; no pressure or temperature quartiles are produced. -/
theorem distribution_stats_flowrate_only (s : Store) (id : ℕ) (p : Payload)
    (h : get_analytics s id = .ok p) :
    p.distribution_stats = distStats ((equipmentOf s id).map (fun e => e.flowrate)) ∧
    ∀ l : List ℚ, l ≠ [] →
      distStats l = ⟨round2 (percentileLinear l 0), round2 (percentileLinear l (1 / 4)),
        round2 (percentileLinear l (1 / 2)), round2 (percentileLinear l (3 / 4)),
        round2 (percentileLinear l 1)⟩ := by
  obtain ⟨d, hf, hne, hp⟩ := get_analytics_ok h
  subst hp
  refine ⟨rfl, ?_⟩
  intro l hl
  unfold distStats
  rw [percentileLinear_zero hl, percentileLinear_one hl]

/-- C7 (counterexample): on a concrete dataset, the payload's only quartile
block equals the flowrate quartiles and differs from both the pressure and
the temperature quartiles — the payload does not contain quartile statistics
for each of the three numeric fields. -/
theorem distribution_stats_not_all_fields :
    get_analytics storeConstP 0 = .ok (mkPayload dsConstP eqsConstP) ∧
      eqsConstP.map (fun e => e.flowrate) = [1, 2, 3] ∧
      eqsConstP.map (fun e => e.pressure) = [5, 5, 5] ∧
      eqsConstP.map (fun e => e.temperature) = [1, 2, 4] ∧
      (mkPayload dsConstP eqsConstP).distribution_stats = distStats [1, 2, 3] ∧
      distStats [5, 5, 5] ≠ distStats [1, 2, 3] ∧
      distStats [1, 2, 4] ≠ distStats [1, 2, 3] := by
  have hfl : eqsConstP.map (fun e => e.flowrate) = [1, 2, 3] := by decide
  refine ⟨get_analytics_storeConstP, hfl, by decide, by decide, ?_, ?_, ?_⟩
  · show distStats (eqsConstP.map (fun e => e.flowrate)) = distStats [1, 2, 3]
    rw [hfl]
  · norm_num [distStats, percentileLinear, sortQ, sortBy, insertLe, listMin, listMax,
      round2, roundHalfEven, List.foldl]
  · norm_num [distStats, percentileLinear, sortQ, sortBy, insertLe, listMin, listMax,
      round2, roundHalfEven, List.foldl]

/-- C7 (witness): the amended claim at a concrete store, with the quartile
block of the flowrates `[1, 2, 3]` spelled out by the percentile formula. -/
theorem distribution_stats_witness :
    (mkPayload dsConstP eqsConstP).distribution_stats
        = distStats ((equipmentOf storeConstP 0).map (fun e => e.flowrate)) ∧
      distStats [(1 : ℚ), 2, 3]
        = ⟨round2 (percentileLinear [(1 : ℚ), 2, 3] 0),
           round2 (percentileLinear [(1 : ℚ), 2, 3] (1 / 4)),
           round2 (percentileLinear [(1 : ℚ), 2, 3] (1 / 2)),
           round2 (percentileLinear [(1 : ℚ), 2, 3] (3 / 4)),
           round2 (percentileLinear [(1 : ℚ), 2, 3] 1)⟩ := by
  have h2 := distribution_stats_flowrate_only storeConstP 0 _ get_analytics_storeConstP
  exact ⟨h2.1, h2.2 [1, 2, 3] (by decide)⟩

/-! ### Correlation lemmas, C8 -/

theorem zip_self_eq {xs : List ℚ} : ∀ p ∈ xs.zip xs, p.1 = p.2 := by
  induction xs with
  | nil => simp
  | cons a t ih =>
    intro p hp
    rw [List.zip_cons_cons] at hp
    rcases List.mem_cons.mp hp with rfl | hp
    · rfl
    · exact ih p hp

theorem devSq_nonneg (xs : List ℚ) : 0 ≤ devSq xs := by
  unfold devSq devProd
  apply List.sum_nonneg
  intro q hq
  rw [List.mem_map] at hq
  obtain ⟨p, hp, hpq⟩ := hq
  have hps := zip_self_eq p hp
  rw [← hpq, hps]
  exact mul_self_nonneg _

theorem corrCell_none_iff (xs ys : List ℚ) :
    corrCell xs ys = none ↔ devSq xs * devSq ys = 0 := by
  unfold corrCell pearson
  split_ifs with h
  · simp [h]
  · simp [h]

theorem corrCell_diag {xs : List ℚ} (h : devSq xs ≠ 0) : corrCell xs xs = some 1 := by
  unfold corrCell pearson
  rw [if_neg (mul_ne_zero h h)]
  have hpos : (0 : ℝ) < ((devSq xs : ℚ) : ℝ) := by
    exact_mod_cast (devSq_nonneg xs).lt_of_ne (Ne.symm h)
  have hsqrt : Real.sqrt (((devSq xs * devSq xs : ℚ) : ℝ)) = ((devSq xs : ℚ) : ℝ) := by
    push_cast
    exact Real.sqrt_mul_self hpos.le
  have hval : ((devProd xs xs : ℚ) : ℝ) / Real.sqrt (((devSq xs * devSq xs : ℚ) : ℝ))
      = 1 := by
    rw [hsqrt, show devProd xs xs = devSq xs from rfl]
    exact div_self (ne_of_gt hpos)
  rw [Option.map_some', hval]
  have : roundToR 2 1 = 1 := by
    norm_num [roundToR, roundHalfEvenR, Int.fract]
  rw [this]

/-- C8 (amended): the payload's correlation matrix is the 3×3 pairwise
Pearson matrix over flowrate, pressure and temperature with every defined
cell rounded to 2 decimals; a cell is NaN exactly when one of its two
columns has zero squared deviation, and NaN cells are returned as NaN — they
are *not* substituted with 0; each diagonal cell equals 1.0 exactly when its
column has nonzero variance (a zero-variance column yields NaN there even
for a dataset produced by a successful ingest). -/
theorem corr_matrix_rounded_nan (s : Store) (id : ℕ) (p : Payload)
    (h : get_analytics s id = .ok p) :
    p.correlation_matrix = corrMatrix ((equipmentOf s id).map (fun e => e.flowrate))
      ((equipmentOf s id).map (fun e => e.pressure))
      ((equipmentOf s id).map (fun e => e.temperature)) ∧
    (∀ xs ys : List ℚ, corrCell xs ys = (pearson xs ys).map (roundToR 2)) ∧
    (∀ xs ys : List ℚ, corrCell xs ys = none ↔ devSq xs * devSq ys = 0) ∧
    (∀ xs : List ℚ, devSq xs ≠ 0 → corrCell xs xs = some 1) := by
  obtain ⟨d, hf, hne, hp⟩ := get_analytics_ok h
  subst hp
  exact ⟨rfl, fun xs ys => rfl, corrCell_none_iff, fun xs hx => corrCell_diag hx⟩

theorem ingest_storeConstP :
    create_dataset_from_csv csvConstPressure "g.csv" ⟨[], [], 0, 0⟩
      = .ok (storeConstP, 0) := by
  have hv : validate_csv csvConstPressure = .ok rowsConstP := by decide
  unfold create_dataset_from_csv
  rw [hv]
  have hdetP : detect_outliers (rowsConstP.map (fun r => some r.pressure)) 2
      = [false, false, false] := by
    norm_num [rowsConstP, detect_outliers, allSome, mean, zOver, List.replicate]
  have hdetT : detect_outliers (rowsConstP.map (fun r => some r.temperature)) 2
      = [false, false, false] := by
    norm_num [rowsConstP, detect_outliers, allSome, mean, zOver, List.replicate]
  simp only [hdetP, hdetT, createDataset]
  have hbuild : buildEquipment (0 : ℕ) [false, false, false] [false, false, false]
      rowsConstP = .ok eqsConstP := by decide
  simp only [hbuild]
  have havF : round2 (mean (rowsConstP.map (fun r => r.flowrate))) = 2 := by
    norm_num [rowsConstP, mean, round2, roundHalfEven]
  have havP : round2 (mean (rowsConstP.map (fun r => r.pressure))) = 5 := by
    norm_num [rowsConstP, mean, round2, roundHalfEven]
  have havT : round2 (mean (rowsConstP.map (fun r => r.temperature))) = 233 / 100 := by
    norm_num [rowsConstP, mean, round2, roundHalfEven]
  simp only [havF, havP, havT]
  norm_num [storeConstP, dsConstP, eqsConstP, maintain_dataset_limit, recentDesc,
    sortBy, insertLe, rowsConstP, List.filter]

/-- C8 (counterexample): ingesting a table whose `Pressure` column is
constant succeeds, and the resulting correlation matrix's `pressure` row —
its diagonal included — is NaN, not 0 and not 1.0: NaN cells are not
substituted and the diagonal of a successfully ingested dataset need not be
1.0. -/
theorem corr_matrix_nan_not_substituted :
    create_dataset_from_csv csvConstPressure "g.csv" ⟨[], [], 0, 0⟩
        = .ok (storeConstP, 0) ∧
      get_analytics storeConstP 0 = .ok (mkPayload dsConstP eqsConstP) ∧
      (mkPayload dsConstP eqsConstP).correlation_matrix.get? 1
        = some ⟨"pressure", none, none, none⟩ ∧
      (none : Option ℝ) ≠ some 0 ∧ (none : Option ℝ) ≠ some 1 := by
  refine ⟨ingest_storeConstP, get_analytics_storeConstP, ?_, by simp, by simp⟩
  have hpr : eqsConstP.map (fun e => e.pressure) = [5, 5, 5] := by decide
  have hdev : devSq [(5 : ℚ), 5, 5] = 0 := by
    norm_num [devSq, devProd, mean, List.zip, List.zipWith]
  have hcell : ∀ ys : List ℚ, corrCell [(5 : ℚ), 5, 5] ys = none := by
    intro ys
    rw [corrCell_none_iff, hdev, zero_mul]
  simp only [mkPayload, corrMatrix, hpr, hcell, List.get?]

/-- C8 (witness): the amended claim at the constant-pressure store, plus a
concrete nonzero-variance diagonal evaluating to 1.0. -/
theorem corr_matrix_witness :
    (mkPayload dsConstP eqsConstP).correlation_matrix
        = corrMatrix ((equipmentOf storeConstP 0).map (fun e => e.flowrate))
          ((equipmentOf storeConstP 0).map (fun e => e.pressure))
          ((equipmentOf storeConstP 0).map (fun e => e.temperature)) ∧
      corrCell [(1 : ℚ), 2, 3] [(1 : ℚ), 2, 3] = some 1 := by
  have h2 := corr_matrix_rounded_nan storeConstP 0 _ get_analytics_storeConstP
  refine ⟨h2.1, h2.2.2.2 [1, 2, 3] ?_⟩
  norm_num [devSq, devProd, mean, List.zip, List.zipWith]

end CEPV
